import Mathlib

/-!
Verification of the FGCM build-stars pipeline (`fgcmBuildStars.py`, in its
`lsst.fgcmcal` and legacy `lsst.fgcm` variants) against its natural-language
specification.  The Python task is shallowly embedded: catalogs become lists,
the butler (data store) becomes an explicit record of optional artifacts,
exceptions become `Except`/`Option`, and numpy double arithmetic is modelled
over `ℝ` (for the magnitude formulas) or over an explicit IEEE-style value
type over `ℚ` (where finiteness and `nan_to_num` behaviour matter).
-/

namespace FgcmBuildStars

/-! ## Magnitude computation (`_fgcmMakeAllStarObservations`, both variants)

The compiler computes, for the surviving sources of each (visit, ccd) pair,

  mag    = zeropointDefault - 2.5*np.log10(flux) + 2.5*np.log10(expTime)
  magerr = (2.5 / np.log(10.)) * (fluxErr / flux)

and, when `config.applyJacobian` is set, additionally subtracts
`2.5*np.log10(jacobian)` from `mag`.  Modelled over the reals. -/

/-- Model of `np.log10`: the base-10 logarithm. -/
noncomputable def log10 (x : ℝ) : ℝ := Real.logb 10 x

/-- Instrumental magnitude as computed by `_fgcmMakeAllStarObservations`:
`zeropointDefault - 2.5*log10(flux) + 2.5*log10(expTime)`, minus
`2.5*log10(jacobian)` when the Jacobian correction is enabled. -/
noncomputable def instrumentalMag (zeropointDefault flux expTime : ℝ)
    (applyJacobian : Bool) (jacobian : ℝ) : ℝ :=
  let mag := zeropointDefault - 2.5 * log10 flux + 2.5 * log10 expTime
  if applyJacobian then mag - 2.5 * log10 jacobian else mag

/-- Instrumental magnitude error as computed by `_fgcmMakeAllStarObservations`:
`(2.5 / ln 10) * (fluxErr / flux)`. -/
noncomputable def instrumentalMagErr (flux fluxErr : ℝ) : ℝ :=
  (2.5 / Real.log 10) * (fluxErr / flux)

/-! Numeric bounds on the logarithms involved in the spec's worked example. -/

lemma log_ten_pos : 0 < Real.log 10 := Real.log_pos (by norm_num)

lemma log_ten_bounds : 2.3024 < Real.log 10 ∧ Real.log 10 < 2.3027 := by
  have h3 : ((10 : ℝ) ^ (3 : ℕ)) = 2 ^ (10 : ℕ) / 1.024 := by norm_num
  have hlogpow : Real.log ((10 : ℝ) ^ (3 : ℕ)) = 3 * Real.log 10 := by
    rw [Real.log_pow]; norm_num
  have hlogdiv : Real.log ((2 : ℝ) ^ (10 : ℕ) / 1.024)
      = 10 * Real.log 2 - Real.log 1.024 := by
    rw [Real.log_div (by norm_num) (by norm_num), Real.log_pow]; norm_num
  have hkey : 3 * Real.log 10 = 10 * Real.log 2 - Real.log 1.024 := by
    rw [← hlogpow, h3, hlogdiv]
  have hup : Real.log 1.024 ≤ 0.024 := by
    have := Real.log_le_sub_one_of_pos (x := 1.024) (by norm_num)
    linarith
  have hlo : (0.0234375 : ℝ) ≤ Real.log 1.024 := by
    have hinv := Real.log_le_sub_one_of_pos (x := (1.024 : ℝ)⁻¹) (by norm_num)
    rw [Real.log_inv] at hinv
    have : ((1.024 : ℝ)⁻¹ : ℝ) = 0.9765625 := by norm_num
    rw [this] at hinv
    linarith
  have h2lo := Real.log_two_gt_d9
  have h2up := Real.log_two_lt_d9
  constructor <;> nlinarith [hkey]

lemma logb_ten_thousand : log10 1000 = 3 := by
  have h : (1000 : ℝ) = 10 ^ (3 : ℕ) := by norm_num
  rw [log10, h, Real.logb, Real.log_pow, mul_div_assoc,
    div_self (ne_of_gt log_ten_pos)]
  norm_num

lemma logb_ten_thirty_bounds : 1.47 < log10 30 ∧ log10 30 < 1.48 := by
  have hp1 : ((10 : ℝ) ^ (147 : ℕ)) < (30 : ℝ) ^ (100 : ℕ) := by norm_num
  have hp2 : ((30 : ℝ) ^ (100 : ℕ)) < (10 : ℝ) ^ (148 : ℕ) := by norm_num
  have hl1 : Real.log ((10 : ℝ) ^ (147 : ℕ)) < Real.log ((30 : ℝ) ^ (100 : ℕ)) :=
    Real.log_lt_log (by positivity) hp1
  have hl2 : Real.log ((30 : ℝ) ^ (100 : ℕ)) < Real.log ((10 : ℝ) ^ (148 : ℕ)) :=
    Real.log_lt_log (by positivity) hp2
  rw [Real.log_pow, Real.log_pow] at hl1
  rw [Real.log_pow, Real.log_pow] at hl2
  push_cast at hl1 hl2
  have h10 := log_ten_pos
  rw [log10, Real.logb]
  constructor
  · rw [lt_div_iff h10]; nlinarith
  · rw [div_lt_iff h10]; nlinarith

lemma instrumentalMag_example :
    instrumentalMag 25 1000 30 false 1 = 17.5 + 2.5 * log10 30 := by
  simp only [instrumentalMag, logb_ten_thousand, Bool.false_eq_true, if_false]
  ring

lemma instrumentalMagErr_example :
    instrumentalMagErr 1000 50 = 0.125 / Real.log 10 := by
  rw [instrumentalMagErr]
  have h := log_ten_pos
  field_simp
  ring

/-- C2 (counterexample): with flux = 1000, exposureTime = 30,
zeropointDefault = 25.0 and the Jacobian correction disabled, the magnitude
computed by the code is NOT approximately 22.618 — it differs from 22.618 by
more than a full magnitude (the true value is ≈ 21.193). -/
theorem magnitude_example_not_22618 :
    1 < |instrumentalMag 25 1000 30 false 1 - 22.618| := by
  rw [instrumentalMag_example]
  obtain ⟨hl, hu⟩ := logb_ten_thirty_bounds
  exact lt_abs.mpr (Or.inr (by nlinarith))

/-- C2 (amended): the stored instrumental magnitude equals
`zeropointDefault − 2.5·log10 flux + 2.5·log10 expTime`, additionally minus
`2.5·log10 jacobian` when the Jacobian correction is enabled, and the stored
magnitude error equals `(2.5/ln 10)·(fluxErr/flux)`; in particular
flux = 1000, exposureTime = 30, zeropointDefault = 25.0, Jacobian disabled
gives mag ≈ 21.19 (not 22.618), and fluxErr = 50 gives magErr ≈ 0.0543. -/
theorem magnitude_formulas_and_examples :
    (∀ zpt flux expT jac : ℝ,
        instrumentalMag zpt flux expT true jac
          = zpt - 2.5 * log10 flux + 2.5 * log10 expT - 2.5 * log10 jac
      ∧ instrumentalMag zpt flux expT false jac
          = zpt - 2.5 * log10 flux + 2.5 * log10 expT)
    ∧ (∀ flux fluxErr : ℝ,
        instrumentalMagErr flux fluxErr = (2.5 / Real.log 10) * (fluxErr / flux))
    ∧ |instrumentalMag 25 1000 30 false 1 - 21.19| < 1 / 50
    ∧ |instrumentalMagErr 1000 50 - 0.0543| < 1 / 1000 := by
  refine ⟨fun zpt flux expT jac => ⟨by simp [instrumentalMag], by simp [instrumentalMag]⟩,
    fun flux fluxErr => rfl, ?_, ?_⟩
  · rw [instrumentalMag_example]
    obtain ⟨hl, hu⟩ := logb_ten_thirty_bounds
    exact abs_lt.mpr ⟨by nlinarith, by nlinarith⟩
  · rw [instrumentalMagErr_example]
    obtain ⟨hl, hu⟩ := log_ten_bounds
    have h10 := log_ten_pos
    rw [abs_lt]
    have hlo : (0.0533 : ℝ) < 0.125 / Real.log 10 := by
      rw [lt_div_iff₀ h10]; nlinarith
    have hhi : (0.125 : ℝ) / Real.log 10 < 0.0553 := by
      rw [div_lt_iff₀ h10]; nlinarith
    constructor <;> linarith

/-! ## Visit Catalog ordering (`_fgcmMakeVisitCatalog`)

The `lsst.fgcmcal` variant collects the discovered visit identifiers into
`srcVisits` and then runs `srcVisits.sort()` (Python's ascending stable sort)
before building one catalog row per entry; the legacy `lsst.fgcm` variant
builds the rows directly in discovery order with no sort.  The catalog's row
order is exactly the order of the (sorted or unsorted) visit list. -/

/-- Visit-id list of the Visit Catalog in the `lsst.fgcmcal` variant:
`srcVisits.sort()` — an ascending stable sort, modelled by insertion sort. -/
def sortedSrcVisits (srcVisits : List Int) : List Int :=
  srcVisits.insertionSort (· ≤ ·)

/-- Visit-id list of the Visit Catalog in the legacy `lsst.fgcm` variant:
no sort is performed, the discovery order is kept as-is. -/
def legacySrcVisits (srcVisits : List Int) : List Int := srcVisits

/-- C3 (counterexample): in the legacy `lsst.fgcm` variant the visit list is
persisted in discovery order; for the input ordering `[101, 100]` the
resulting Visit Catalog rows are not sorted strictly ascending. -/
theorem legacy_visitCatalog_not_sorted :
    ¬ List.Sorted (· < ·) (legacySrcVisits [101, 100]) := by
  decide

/-- C3 (amended): in the `lsst.fgcmcal` variant the persisted Visit Catalog
rows are sorted ascending for any input ordering, and when the discovered
visit identifiers are pairwise distinct they are strictly ascending and
contain each visit identifier at most once; the legacy `lsst.fgcm` variant
keeps discovery order and need not be sorted. -/
theorem visitCatalog_sorted_unique (srcVisits : List Int)
    (h : srcVisits.Nodup) :
    List.Sorted (· < ·) (sortedSrcVisits srcVisits)
      ∧ (sortedSrcVisits srcVisits).Nodup := by
  have hsort : List.Sorted (· ≤ ·) (sortedSrcVisits srcVisits) :=
    List.sorted_insertionSort (· ≤ ·) srcVisits
  have hperm : (sortedSrcVisits srcVisits).Perm srcVisits :=
    List.perm_insertionSort (· ≤ ·) srcVisits
  have hnd : (sortedSrcVisits srcVisits).Nodup := hperm.nodup_iff.mpr h
  refine ⟨?_, hnd⟩
  exact (hsort.and hnd).imp fun hab => lt_of_le_of_ne hab.1 hab.2

/-- Witness for C3's amended theorem at the concrete input `[101, 100, 102]`. -/
theorem visitCatalog_sorted_unique_witness :
    ([101, 100, 102] : List Int).Nodup
      ∧ (List.Sorted (· < ·) (sortedSrcVisits [101, 100, 102])
          ∧ (sortedSrcVisits [101, 100, 102]).Nodup) :=
  ⟨by decide, visitCatalog_sorted_unique [101, 100, 102] (by decide)⟩

/-! ## Filter-label lookup in the Star Matcher Adapter (`_fgcmMatchStars`)

`_fgcmMatchStars` packs the per-visit filter names into a numpy `'a2'` array
(fixed two-character width) and assigns each observation the filter at index
`np.searchsorted(visitCat['visit'], obsCat['visit'])` — the left insertion
point of the observation's visit id in the sorted visit-id column. -/

/-- Row of the Visit Catalog, restricted to the fields the adapter reads. -/
structure VisitRec where
  visit : Int
  filtername : String
  deriving DecidableEq

/-- Per-visit filter names packed into the `'a2'` numpy array: each stored
string is truncated to its first two characters. -/
def visitFilterNames (visitCat : List VisitRec) : List String :=
  visitCat.map (fun v => v.filtername.take 2)

/-- Left insertion point computed by `np.searchsorted(a, v)` (default side
`'left'`): the first position whose element is `≥ v`, or `a.length` when
there is none.  On a sorted array this is exactly the index the binary
search returns. -/
def searchsorted (a : List Int) (v : Int) : Nat :=
  a.findIdx (fun x => v ≤ x)

/-- Filter label assigned by the adapter to an observation with visit id
`obsVisit`: `visitFilterNames[searchsorted(visitCat['visit'], obsVisit)]`. -/
def obsFilterName (visitCat : List VisitRec) (obsVisit : Int) : String :=
  (visitFilterNames visitCat).getD (searchsorted (visitCat.map (·.visit)) obsVisit) ""

lemma string_take_of_length_le (s : String) (n : Nat) (h : s.length ≤ n) :
    s.take n = s := by
  rw [String.take_eq]
  cases s with
  | mk data =>
    simp only [String.length] at h
    congr 1
    exact List.take_of_length_le (by simpa using h)

/-- C4: for every observation whose visit id occurs in the (strictly sorted)
Visit Catalog, the filter label the Star Matcher Adapter assigns by binary
search equals the filter label stored in the Visit Catalog row with that
visit id (stored labels have the catalog's fixed 2-character width). -/
theorem obsFilterName_eq_row_filter (visitCat : List VisitRec) (r : VisitRec)
    (hs : List.Sorted (· < ·) (visitCat.map (·.visit)))
    (hr : r ∈ visitCat) (hf : r.filtername.length ≤ 2) :
    obsFilterName visitCat r.visit = r.filtername := by
  obtain ⟨i, hi, hget⟩ := List.mem_iff_getElem.mp hr
  have hilen : i < (visitCat.map (·.visit)).length := by simpa using hi
  have hidi : (visitCat.map (·.visit))[i] = r.visit := by
    simp [List.getElem_map, hget]
  have hfind : searchsorted (visitCat.map (·.visit)) r.visit = i := by
    rw [searchsorted, List.findIdx_eq hilen]
    refine ⟨by simp [hidi], fun j hj => ?_⟩
    have hjlen : j < (visitCat.map (·.visit)).length := lt_trans hj hilen
    have hlt : (visitCat.map (·.visit))[j] < (visitCat.map (·.visit))[i] :=
      List.Sorted.get_strictMono hs (by exact hj)
    rw [hidi] at hlt
    simpa using not_le.mpr hlt
  have hlen2 : i < (visitFilterNames visitCat).length := by
    simpa [visitFilterNames] using hi
  rw [obsFilterName, hfind, List.getD_eq_getElem _ _ hlen2]
  simp only [visitFilterNames, List.getElem_map, hget]
  exact string_take_of_length_le _ _ hf

/-- Witness for C4 at a concrete two-row Visit Catalog. -/
theorem obsFilterName_eq_row_filter_witness :
    obsFilterName [⟨100, "g"⟩, ⟨101, "r"⟩] (101 : Int) = "r" :=
  obsFilterName_eq_row_filter [⟨100, "g"⟩, ⟨101, "r"⟩] ⟨101, "r"⟩
    (by decide) (by decide) (by decide)

/-! ## Observation Compiler (`_fgcmMakeAllStarObservations`, fgcmcal variant)

The compiler iterates over the visits of the Visit Catalog in order and,
inside each visit, over the camera's detectors in order.  For each
(visit, ccd) pair it fetches the detection catalog (`butler.get('src', ...)`;
a `NoResults` exception skips the pair), passes it to the source selector,
and appends the selected rows — tagged with this visit id and ccd id — to the
growing `fullCatalog`.  `fullCatalog` is only created when the first fetch
succeeds (the `started` flag); the catalog is persisted once, after the loop.
The selector and the per-row measurement payload are abstract (`select`, σ):
the claims settled here concern row order and presence only. -/

/-- Row of the Observation Catalog: originating visit id, detector (ccd) id,
and the selected source record it was built from (which carries the sky and
pixel positions and the magnitudes). -/
structure ObsRow (σ : Type) where
  visit : Int
  ccd : Int
  src : σ
  deriving DecidableEq

/-- Failure mode of the compiler stage: the final
`butler.put(fullCatalog, 'fgcmStarObservations')` references a `fullCatalog`
variable that was never assigned (Python `UnboundLocalError`). -/
inductive ObsStageError where
  | unboundLocal
  deriving DecidableEq

/-- Rows contributed by one (visit, ccd) pair: the selector output mapped to
output rows tagged with this visit and ccd; a pair whose source fetch raises
`NoResults` (`src v ccd = none`) contributes nothing. -/
def ccdRows (select : List σ → List σ) (src : Int → Int → Option (List σ))
    (v : VisitRec) (ccd : Int) : List (ObsRow σ) :=
  match src v.visit ccd with
  | none => []
  | some sources => (select sources).map (fun s => ⟨v.visit, ccd, s⟩)

/-- One iteration of the inner (ccd) loop.  The accumulator is `none` while
`started` is false, i.e. until the first successful source fetch creates
`fullCatalog`; every successful fetch extends it with the selected rows. -/
def obsStep (select : List σ → List σ) (src : Int → Int → Option (List σ))
    (acc : Option (List (ObsRow σ))) (v : VisitRec) (ccd : Int) :
    Option (List (ObsRow σ)) :=
  match src v.visit ccd with
  | none => acc
  | some sources =>
      let rows := (select sources).map (fun s => ⟨v.visit, ccd, s⟩)
      match acc with
      | none => some rows
      | some full => some (full ++ rows)

/-- The nested visit × ccd accumulation loop of
`_fgcmMakeAllStarObservations`. -/
def obsLoop (select : List σ → List σ) (src : Int → Int → Option (List σ))
    (camera : List Int) (acc : Option (List (ObsRow σ)))
    (visitCat : List VisitRec) : Option (List (ObsRow σ)) :=
  visitCat.foldl
    (fun a v => camera.foldl (fun a2 d => obsStep select src a2 v d) a) acc

/-- `_fgcmMakeAllStarObservations` (fgcmcal variant): run the accumulation
over the whole Visit Catalog, then persist `fullCatalog` exactly once at the
end.  If no (visit, ccd) pair ever yielded a source catalog, `fullCatalog`
was never created and the final persist raises an unbound-local error. -/
def fgcmMakeAllStarObservations (select : List σ → List σ)
    (src : Int → Int → Option (List σ)) (camera : List Int)
    (visitCat : List VisitRec) : Except ObsStageError (List (ObsRow σ)) :=
  match obsLoop select src camera none visitCat with
  | none => .error .unboundLocal
  | some fullCatalog => .ok fullCatalog

/-- Rows contributed by one visit: concatenation over the camera's detectors
in camera order. -/
def visitRows (select : List σ → List σ) (src : Int → Int → Option (List σ))
    (camera : List Int) (v : VisitRec) : List (ObsRow σ) :=
  camera.flatMap (ccdRows select src v)

lemma ccdLoop_some (select : List σ → List σ)
    (src : Int → Int → Option (List σ)) (v : VisitRec) :
    ∀ (camera : List Int) (l : List (ObsRow σ)),
      camera.foldl (fun a d => obsStep select src a v d) (some l)
        = some (l ++ visitRows select src camera v) := by
  intro camera
  induction camera with
  | nil => intro l; simp [visitRows]
  | cons d ds ih =>
    intro l
    simp only [List.foldl_cons]
    rcases hsrc : src v.visit d with _ | sources
    · rw [show obsStep select src (some l) v d = some l by
        simp [obsStep, hsrc]]
      rw [ih l]
      simp [visitRows, ccdRows, hsrc]
    · rw [show obsStep select src (some l) v d
          = some (l ++ (select sources).map (fun s => ⟨v.visit, d, s⟩)) by
        simp [obsStep, hsrc]]
      rw [ih]
      simp [visitRows, ccdRows, hsrc]

lemma ccdLoop_none (select : List σ → List σ)
    (src : Int → Int → Option (List σ)) (v : VisitRec) :
    ∀ (camera : List Int),
      (camera.foldl (fun a d => obsStep select src a v d) none = none
          ∧ visitRows select src camera v = [])
        ∨ camera.foldl (fun a d => obsStep select src a v d) none
            = some (visitRows select src camera v) := by
  intro camera
  induction camera with
  | nil => exact Or.inl ⟨rfl, rfl⟩
  | cons d ds ih =>
    simp only [List.foldl_cons]
    rcases hsrc : src v.visit d with _ | sources
    · rw [show obsStep select src none v d = none by simp [obsStep, hsrc]]
      rcases ih with ⟨h1, h2⟩ | h
      · exact Or.inl ⟨h1, by simp [visitRows, ccdRows, hsrc] at h2 ⊢; exact h2⟩
      · right
        rw [h]
        simp [visitRows, ccdRows, hsrc]
    · rw [show obsStep select src none v d
          = some ((select sources).map (fun s => ⟨v.visit, d, s⟩)) by
        simp [obsStep, hsrc]]
      right
      rw [ccdLoop_some select src v ds]
      simp [visitRows, ccdRows, hsrc]

lemma ccdLoop_all_missing (select : List σ → List σ)
    (src : Int → Int → Option (List σ)) (v : VisitRec) :
    ∀ (camera : List Int), (∀ d ∈ camera, src v.visit d = none) →
      camera.foldl (fun a d => obsStep select src a v d) none = none := by
  intro camera
  induction camera with
  | nil => intro _; rfl
  | cons d ds ih =>
    intro h
    simp only [List.foldl_cons]
    rw [show obsStep select src none v d = none by
      simp [obsStep, h d (by simp)]]
    exact ih fun d' hd' => h d' (by simp [hd'])

lemma obsLoop_some (select : List σ → List σ)
    (src : Int → Int → Option (List σ)) (camera : List Int) :
    ∀ (visitCat : List VisitRec) (l : List (ObsRow σ)),
      obsLoop select src camera (some l) visitCat
        = some (l ++ visitCat.flatMap (visitRows select src camera)) := by
  intro visitCat
  induction visitCat with
  | nil => intro l; simp [obsLoop]
  | cons v vs ih =>
    intro l
    simp only [obsLoop, List.foldl_cons]
    rw [ccdLoop_some select src v camera l]
    rw [show ∀ a, vs.foldl
        (fun a v => camera.foldl (fun a2 d => obsStep select src a2 v d) a) a
        = obsLoop select src camera a vs from fun a => rfl]
    rw [ih]
    simp

lemma obsLoop_none (select : List σ → List σ)
    (src : Int → Int → Option (List σ)) (camera : List Int) :
    ∀ (visitCat : List VisitRec),
      (obsLoop select src camera none visitCat = none
          ∧ visitCat.flatMap (visitRows select src camera) = [])
        ∨ obsLoop select src camera none visitCat
            = some (visitCat.flatMap (visitRows select src camera)) := by
  intro visitCat
  induction visitCat with
  | nil => exact Or.inl ⟨rfl, rfl⟩
  | cons v vs ih =>
    simp only [obsLoop, List.foldl_cons]
    rcases ccdLoop_none select src v camera with ⟨h1, h2⟩ | h
    · rw [h1]
      rcases ih with ⟨i1, i2⟩ | i
      · exact Or.inl ⟨i1, by simp [h2, i2]⟩
      · right
        rw [show vs.foldl
            (fun a v => camera.foldl (fun a2 d => obsStep select src a2 v d) a) none
            = obsLoop select src camera none vs from rfl, i]
        simp [h2]
    · right
      rw [h]
      rw [show ∀ a, vs.foldl
          (fun a v => camera.foldl (fun a2 d => obsStep select src a2 v d) a) a
          = obsLoop select src camera a vs from fun a => rfl]
      rw [obsLoop_some]
      simp

lemma obsLoop_all_missing (select : List σ → List σ)
    (src : Int → Int → Option (List σ)) (camera : List Int) :
    ∀ (visitCat : List VisitRec),
      (∀ v ∈ visitCat, ∀ d ∈ camera, src v.visit d = none) →
      obsLoop select src camera none visitCat = none := by
  intro visitCat
  induction visitCat with
  | nil => intro _; rfl
  | cons v vs ih =>
    intro h
    simp only [obsLoop, List.foldl_cons]
    rw [ccdLoop_all_missing select src v camera (h v (by simp))]
    exact ih fun v' hv' => h v' (by simp [hv'])

/-- Visit-then-detector enumeration order on Observation Catalog rows:
a row precedes another when it comes from an earlier visit, or from the same
visit and a detector no later in camera order. -/
def obsOrder (r1 r2 : ObsRow σ) : Prop :=
  r1.visit < r2.visit ∨ (r1.visit = r2.visit ∧ r1.ccd ≤ r2.ccd)

instance (r1 r2 : ObsRow σ) : Decidable (obsOrder r1 r2) := by
  unfold obsOrder; infer_instance

lemma mem_ccdRows {select : List σ → List σ}
    {src : Int → Int → Option (List σ)} {v : VisitRec} {d : Int}
    {x : ObsRow σ} (hx : x ∈ ccdRows select src v d) :
    x.visit = v.visit ∧ x.ccd = d := by
  rw [ccdRows] at hx
  rcases hsrc : src v.visit d with _ | sources <;> rw [hsrc] at hx
  · simp at hx
  · simp only [List.mem_map] at hx
    obtain ⟨s, _, rfl⟩ := hx
    exact ⟨rfl, rfl⟩

lemma mem_visitRows {select : List σ → List σ}
    {src : Int → Int → Option (List σ)} {camera : List Int} {v : VisitRec}
    {x : ObsRow σ} (hx : x ∈ visitRows select src camera v) :
    x.visit = v.visit := by
  rw [visitRows, List.mem_flatMap] at hx
  obtain ⟨d, _, hxd⟩ := hx
  exact (mem_ccdRows hxd).1

lemma visitRows_pairwise (select : List σ → List σ)
    (src : Int → Int → Option (List σ)) (camera : List Int) (v : VisitRec)
    (hc : List.Pairwise (· < ·) camera) :
    (visitRows select src camera v).Pairwise obsOrder := by
  rw [visitRows, List.pairwise_flatMap]
  constructor
  · intro d _
    refine List.pairwise_of_forall_mem_list fun {x} hx {y} hy => ?_
    exact Or.inr ⟨by rw [(mem_ccdRows hx).1, (mem_ccdRows hy).1],
      by rw [(mem_ccdRows hx).2, (mem_ccdRows hy).2]⟩
  · exact hc.imp fun {d1 d2} h12 x hx y hy =>
      Or.inr ⟨by rw [(mem_ccdRows hx).1, (mem_ccdRows hy).1],
        by rw [(mem_ccdRows hx).2, (mem_ccdRows hy).2]; exact le_of_lt h12⟩

/-- C5: the Observation Catalog lists its rows in visit-then-detector
enumeration order: whenever the compiler succeeds, for any two rows the one
from the earlier visit (the Visit Catalog being sorted ascending by visit id)
precedes the other, and within a visit the one from the earlier detector (the
camera's fixed detector enumeration being ascending by detector id) precedes
the other. -/
theorem obsCatalog_visit_then_ccd_order (select : List σ → List σ)
    (src : Int → Int → Option (List σ)) (camera : List Int)
    (visitCat : List VisitRec) (rows : List (ObsRow σ))
    (hv : List.Sorted (· < ·) (visitCat.map (·.visit)))
    (hc : List.Sorted (· < ·) camera)
    (hok : fgcmMakeAllStarObservations select src camera visitCat = .ok rows) :
    List.Pairwise obsOrder rows := by
  have hrows : rows = visitCat.flatMap (visitRows select src camera) := by
    rw [fgcmMakeAllStarObservations] at hok
    rcases obsLoop_none select src camera visitCat with ⟨h1, _⟩ | h
    · rw [h1] at hok; exact absurd hok (by simp)
    · rw [h] at hok
      simpa using hok.symm
  subst hrows
  rw [List.pairwise_flatMap]
  refine ⟨fun v _ => visitRows_pairwise select src camera v hc, ?_⟩
  refine (List.pairwise_map.mp hv).imp fun {v1 v2} h12 x hx y hy => ?_
  exact Or.inl (by rw [mem_visitRows hx, mem_visitRows hy]; exact h12)

/-- Witness for C5: the spec's end-to-end scenario — visits 100 and 101, one
detector, 3 and 2 passing detections — yields the five rows of the
Observation Catalog in visit order 100×3 then 101×2. -/
theorem obsCatalog_visit_then_ccd_order_witness :
    List.Pairwise obsOrder
      [(⟨100, 1, 10⟩ : ObsRow Nat), ⟨100, 1, 11⟩, ⟨100, 1, 12⟩,
        ⟨101, 1, 20⟩, ⟨101, 1, 21⟩] :=
  obsCatalog_visit_then_ccd_order id
    (fun v _ => if v = 100 then some [10, 11, 12] else
      if v = 101 then some [20, 21] else none)
    [1] [⟨100, "g"⟩, ⟨101, "r"⟩] _ (by decide) (by decide) rfl

/-- C10: when the Visit Catalog is non-empty but no (visit, detector) pair of
the whole scan yields a detection catalog, the Observation Compiler does not
complete normally and does not persist an empty catalog: `fullCatalog` is
created only on the first successful fetch, so the final persist fails with
an unbound-local error. -/
theorem obsCatalog_unbound_when_no_sources (select : List σ → List σ)
    (src : Int → Int → Option (List σ)) (camera : List Int)
    (visitCat : List VisitRec) (_hne : visitCat ≠ [])
    (hall : ∀ v ∈ visitCat, ∀ d ∈ camera, src v.visit d = none) :
    fgcmMakeAllStarObservations select src camera visitCat
      = .error .unboundLocal := by
  rw [fgcmMakeAllStarObservations,
    obsLoop_all_missing select src camera visitCat hall]

/-- Witness for C10 at a one-visit, one-detector store with no source
catalogs at all. -/
theorem obsCatalog_unbound_when_no_sources_witness :
    fgcmMakeAllStarObservations (σ := Nat) id (fun _ _ => none) [1]
      [⟨100, "g"⟩] = .error .unboundLocal :=
  obsCatalog_unbound_when_no_sources id (fun _ _ => none) [1] [⟨100, "g"⟩]
    (by simp) (fun _ _ _ _ => rfl)

/-! ## Quality cuts of the legacy Observation Compiler (`lsst.fgcm` variant)

The legacy `_fgcmMakeAllStarObservations` computes

  magErr = (2.5/np.log(10.)) * (sources[fluxErrKey] / sources[fluxKey])
  magErr = np.nan_to_num(magErr)

and keeps a source only when a hand-written flag conjunction holds, ending in
`np.isfinite(magErr), magErr > 0.001, magErr < 0.1`.  numpy double values are
modelled by an explicit value type over exact rationals so that division by
zero, the infinities, NaN and `nan_to_num` behave as IEEE-754/numpy do. -/

/-- A numpy double: a finite value (exact rational), an infinity, or NaN.
The +0/−0 distinction of finite zeros is not modelled; the arrays divided
here hold +0 where they are zero. -/
inductive FloatVal where
  | num (x : ℚ)
  | posInf
  | negInf
  | nan
  deriving DecidableEq

/-- IEEE-754 division as numpy performs it elementwise: finite/0 is NaN for
a zero numerator and a signed infinity otherwise, finite/±∞ is zero, ±∞
divided by a finite value keeps the (combined) sign, ∞/∞ and anything
involving NaN is NaN. -/
def fdiv : FloatVal → FloatVal → FloatVal
  | .num a, .num b =>
      if b = 0 then (if a = 0 then .nan else if 0 < a then .posInf else .negInf)
      else .num (a / b)
  | .num _, .posInf => .num 0
  | .num _, .negInf => .num 0
  | .num _, .nan => .nan
  | .posInf, .num b => if 0 ≤ b then .posInf else .negInf
  | .negInf, .num b => if 0 ≤ b then .negInf else .posInf
  | .posInf, .posInf => .nan
  | .posInf, .negInf => .nan
  | .posInf, .nan => .nan
  | .negInf, .posInf => .nan
  | .negInf, .negInf => .nan
  | .negInf, .nan => .nan
  | .nan, _ => .nan

/-- Multiplication by a positive finite constant (used with `c25ln10`):
keeps the class of infinities and NaN, scales finite values. -/
def fscale (c : ℚ) : FloatVal → FloatVal
  | .num x => .num (c * x)
  | .posInf => .posInf
  | .negInf => .negInf
  | .nan => .nan

/-- The double value of the constant `2.5/np.log(10.)`
(1.0857362047581294). -/
def c25ln10 : ℚ := 10857362047581294 / 10 ^ 16

/-- Largest finite double, `np.finfo(np.float64).max` = (2^53 − 1)·2^971. -/
def maxFloat : ℚ := (2 ^ 53 - 1) * 2 ^ 971

/-- `np.nan_to_num`: NaN becomes 0 and the infinities become the extreme
finite doubles ±maxFloat. -/
def nanToNum : FloatVal → FloatVal
  | .num x => .num x
  | .posInf => .num maxFloat
  | .negInf => .num (-maxFloat)
  | .nan => .num 0

/-- `np.isfinite`. -/
def isFinite : FloatVal → Bool
  | .num _ => true
  | _ => false

/-- Elementwise `v > q` on doubles: false whenever `v` is NaN. -/
def fgt (v : FloatVal) (q : ℚ) : Bool :=
  match v with
  | .num x => decide (q < x)
  | .posInf => true
  | .negInf => false
  | .nan => false

/-- Elementwise `v < q` on doubles: false whenever `v` is NaN. -/
def flt (v : FloatVal) (q : ℚ) : Bool :=
  match v with
  | .num x => decide (x < q)
  | .posInf => false
  | .negInf => true
  | .nan => false

/-- Fields of a detection record read by the legacy quality cut. -/
structure SrcRec where
  flux : FloatVal
  fluxErr : FloatVal
  satCenter : Bool
  intCenter : Bool
  pixEdge : Bool
  crCenter : Bool
  pixBad : Bool
  interpAny : Bool
  centroidFlag : Bool
  apFluxFlag : Bool
  deblendNchild : Int
  parent : Int
  extendedness : ℚ
  deriving DecidableEq

/-- Magnitude error before `nan_to_num`:
`(2.5/np.log(10.)) * (fluxErr / flux)`. -/
def rawMagErr (s : SrcRec) : FloatVal := fscale c25ln10 (fdiv s.fluxErr s.flux)

/-- Magnitude error after the `magErr = np.nan_to_num(magErr)`
reassignment — the value the cuts and the output row use. -/
def magErrNtN (s : SrcRec) : FloatVal := nanToNum (rawMagErr s)

/-- The `gdFlag` conjunction of the legacy `_fgcmMakeAllStarObservations`:
no bad pixel/centroid/aperture flags, not a deblended child or parent, not
extended, and a finite magnitude error inside (0.001, 0.1). -/
def gdFlag (s : SrcRec) : Bool :=
  !s.satCenter && !s.intCenter && !s.pixEdge && !s.crCenter && !s.pixBad &&
  !s.interpAny && !s.centroidFlag && !s.apFluxFlag &&
  decide (s.deblendNchild = 0) && decide (s.parent = 0) &&
  decide (s.extendedness < 0.5) &&
  isFinite (magErrNtN s) && fgt (magErrNtN s) 0.001 && flt (magErrNtN s) 0.1

/-- Sources surviving the legacy quality cut (`sources[gdFlag]`): exactly the
detections copied into `tempCat` and thence into the persisted
`fgcmStarObservations` catalog. -/
def legacyGoodSources (sources : List SrcRec) : List SrcRec :=
  sources.filter gdFlag

/-- A detection with strictly negative flux (−1000) whose flux error is also
negative (−50): all pixel/shape flags clean. -/
def badFluxSrc : SrcRec :=
  ⟨.num (-1000), .num (-50), false, false, false, false, false, false,
    false, false, 0, 0, 0⟩

/-- C6 (counterexample): a detection with non-positive flux CAN appear in the
persisted Observation Catalog.  With flux = −1000 and fluxErr = −50 the
computed magnitude error is (2.5/ln 10)·(−50/−1000) ≈ 0.0543 — finite and
inside the accepted range (0.001, 0.1) — so the legacy quality cut keeps the
row. -/
theorem negative_flux_detection_survives :
    badFluxSrc.flux = .num (-1000)
      ∧ badFluxSrc ∈ legacyGoodSources [badFluxSrc] := by
  refine ⟨rfl, ?_⟩
  rw [legacyGoodSources]
  refine List.mem_filter.mpr ⟨List.mem_singleton.mpr rfl, ?_⟩
  have hval : magErrNtN badFluxSrc
      = FloatVal.num (c25ln10 * ((-50) / (-1000))) := by
    simp only [magErrNtN, rawMagErr, badFluxSrc, fdiv]
    rw [if_neg (by norm_num : ¬ ((-1000 : ℚ) = 0))]
    simp [fscale, nanToNum]
  rw [gdFlag, hval]
  simp only [badFluxSrc, Bool.not_false, Bool.true_and, isFinite, fgt, flt,
    Bool.and_true, Bool.and_eq_true, decide_eq_true_eq]
  norm_num [c25ln10]

/-- Non-positive flux: a finite value ≤ 0 or negative infinity. -/
def nonPosFlux (s : SrcRec) : Prop :=
  (∃ x ≤ 0, s.flux = .num x) ∨ s.flux = .negInf

/-- Non-negative flux error: a finite value ≥ 0 or positive infinity. -/
def nonNegFluxErr (s : SrcRec) : Prop :=
  (∃ y, 0 ≤ y ∧ s.fluxErr = .num y) ∨ s.fluxErr = .posInf

/-- Non-finite flux error. -/
def nonFiniteFluxErr (s : SrcRec) : Prop :=
  s.fluxErr = .posInf ∨ s.fluxErr = .negInf ∨ s.fluxErr = .nan

/-- Degenerate computed magnitude error: non-finite or non-positive. -/
def degenerateMagErr (s : SrcRec) : Prop :=
  rawMagErr s = .nan ∨ rawMagErr s = .posInf ∨ rawMagErr s = .negInf
    ∨ ∃ e ≤ 0, rawMagErr s = .num e

lemma c25ln10_pos : 0 < c25ln10 := by norm_num [c25ln10]

lemma maxFloat_large : (1 : ℚ) < maxFloat := by norm_num [maxFloat]

lemma gdFlag_false_of_cut {s : SrcRec}
    (h : fgt (magErrNtN s) 0.001 = false ∨ flt (magErrNtN s) 0.1 = false) :
    gdFlag s = false := by
  rcases h with h | h <;> simp [gdFlag, h]

lemma cut_of_rawMagErr_cases {s : SrcRec} (h : degenerateMagErr s) :
    fgt (magErrNtN s) 0.001 = false ∨ flt (magErrNtN s) 0.1 = false := by
  have hM := maxFloat_large
  rcases h with h | h | h | ⟨e, he, h⟩ <;>
    simp only [magErrNtN, h, nanToNum]
  · left; simp only [fgt, decide_eq_false_iff_not, not_lt]
    norm_num
  · right; simp only [flt, decide_eq_false_iff_not, not_lt]
    linarith
  · left; simp only [fgt, decide_eq_false_iff_not, not_lt]
    linarith
  · left; simp only [fgt, decide_eq_false_iff_not, not_lt]
    linarith

lemma rawMagErr_degenerate_of_nonfinite_fluxErr {s : SrcRec}
    (h : nonFiniteFluxErr s) : degenerateMagErr s := by
  rcases h with h | h | h <;>
    rcases hf : s.flux with x | _ | _ | _ <;>
      simp only [degenerateMagErr, rawMagErr, h, hf, fdiv, fscale]
  · by_cases hx : (0 : ℚ) ≤ x <;> simp [hx]
  · simp
  · simp
  · simp
  · by_cases hx : (0 : ℚ) ≤ x <;> simp [hx]
  · simp
  · simp
  · simp
  · simp
  · simp
  · simp
  · simp

/-- C6 (amended): a detection with non-positive flux and non-negative flux
error, or with a non-finite flux error, or whose computed magnitude error is
non-finite or non-positive, never appears in the persisted Observation
Catalog — the legacy quality cut drops it from every source list, without
aborting the stage.  (A detection whose flux AND flux error are both
negative can survive, as the counterexample shows.) -/
theorem legacy_quality_drop (s : SrcRec)
    (h : (nonPosFlux s ∧ nonNegFluxErr s) ∨ nonFiniteFluxErr s
      ∨ degenerateMagErr s) :
    ∀ sources : List SrcRec, s ∉ legacyGoodSources sources := by
  have hc := c25ln10_pos
  have hdeg : degenerateMagErr s := by
    rcases h with ⟨hflux, herr⟩ | h | h
    · rcases hflux with ⟨x, hx0, hfx⟩ | hfx
      · rcases herr with ⟨y, hy0, hfy⟩ | hfy
        · by_cases hx : x = 0
          · subst hx
            by_cases hy : y = 0
            · subst hy
              left; simp [rawMagErr, hfx, hfy, fdiv, fscale]
            · right; left
              have hy' : 0 < y := lt_of_le_of_ne hy0 (Ne.symm hy)
              simp [rawMagErr, hfx, hfy, fdiv, fscale, hy, hy']
          · have hx' : x < 0 := lt_of_le_of_ne hx0 hx
            right; right; right
            refine ⟨c25ln10 * (y / x), ?_, ?_⟩
            · exact mul_nonpos_iff.mpr
                (Or.inl ⟨le_of_lt hc, div_nonpos_of_nonneg_of_nonpos hy0 hx0⟩)
            · simp [rawMagErr, hfx, hfy, fdiv, fscale, hx]
        · by_cases hx : x = 0
          · subst hx
            right; left
            simp [rawMagErr, hfx, hfy, fdiv, fscale]
          · have hx' : x < 0 := lt_of_le_of_ne hx0 hx
            right; right; left
            simp [rawMagErr, hfx, hfy, fdiv, fscale, not_le.mpr hx']
      · rcases herr with ⟨y, _, hfy⟩ | hfy
        · right; right; right
          exact ⟨c25ln10 * 0, by simp, by simp [rawMagErr, hfx, hfy, fdiv, fscale]⟩
        · left; simp [rawMagErr, hfx, hfy, fdiv, fscale]
    · exact rawMagErr_degenerate_of_nonfinite_fluxErr h
    · exact h
  intro sources hmem
  rw [legacyGoodSources, List.mem_filter] at hmem
  rw [gdFlag_false_of_cut (cut_of_rawMagErr_cases hdeg)] at hmem
  exact absurd hmem.2 (by simp)

/-- Witness for C6's amended theorem: a zero-flux detection with positive
finite flux error is dropped from every source list. -/
theorem legacy_quality_drop_witness :
    (⟨.num 0, .num 50, false, false, false, false, false, false,
        false, false, 0, 0, 0⟩ : SrcRec) ∉
      legacyGoodSources
        [⟨.num 0, .num 50, false, false, false, false, false, false,
          false, false, 0, 0, 0⟩] :=
  legacy_quality_drop _
    (Or.inl ⟨Or.inl ⟨0, le_refl 0, rfl⟩, Or.inl ⟨50, by norm_num, rfl⟩⟩) _

/-! ## Exposure-metadata fetch in `_fgcmMakeVisitCatalog` (fgcmcal variant)

For each discovered visit the builder runs

    try:
        exp = butler.get('raw', ...)
    except butlerExceptions.NoResults:
        exp = butler.get('calexp', ...)

The fallback `butler.get('calexp', ...)` is not guarded: when the calexp is
also missing, its `NoResults` exception propagates out of the visit loop and
aborts the stage before the catalog is persisted — the visit is not silently
omitted. -/

/-- Butler failure observable here: `NoResults` from a `get`. -/
inductive ButlerErr where
  | noResults
  deriving DecidableEq

/-- Exposure-metadata fetch for one visit: try the raw frame, fall back to
the calexp; when both are unavailable the calexp `NoResults` escapes. -/
def fetchVisitInfo (raw calexp : Int → Option α) (v : Int) :
    Except ButlerErr α :=
  match raw v with
  | some e => .ok e
  | none =>
      match calexp v with
      | some e => .ok e
      | none => .error .noResults

/-- The visit loop of `_fgcmMakeVisitCatalog`: one row (visit id, metadata)
per visit, in order; an unhandled `NoResults` aborts the whole loop and
nothing is persisted. -/
def fgcmMakeVisitCatalogRows (raw calexp : Int → Option α) :
    List Int → Except ButlerErr (List (Int × α))
  | [] => .ok []
  | v :: vs =>
      match fetchVisitInfo raw calexp v with
      | .error e => .error e
      | .ok info =>
          match fgcmMakeVisitCatalogRows raw calexp vs with
          | .error e => .error e
          | .ok rows => .ok ((v, info) :: rows)

/-- C9 (counterexample): a visit (100) for which both the raw and the calexp
sources are unavailable is not omitted as a non-fatal MissingDataError — the
`NoResults` from the unguarded calexp fetch aborts the stage, losing even
the later visit 101 whose calexp exists. -/
theorem missing_metadata_aborts_stage :
    fgcmMakeVisitCatalogRows (α := ℕ) (fun _ => none)
        (fun v => if v = 101 then some 7 else none) [100, 101]
      = .error .noResults := rfl

/-- Exposure-metadata fetch of the legacy `lsst.fgcm` `_fgcmMakeVisitCatalog`:
a single unguarded `butler.get('raw', ...)` — there is no try/except and no
calexp fetch anywhere in its visit loop, so a missing raw raises
`NoResults`. -/
def legacyFetchVisitInfo (raw : Int → Option α) (v : Int) :
    Except ButlerErr α :=
  match raw v with
  | some e => .ok e
  | none => .error .noResults

/-- The visit loop of the legacy `_fgcmMakeVisitCatalog`: one row per visit
from the raw source only; an unhandled `NoResults` aborts the whole loop. -/
def legacyMakeVisitCatalogRows (raw : Int → Option α) :
    List Int → Except ButlerErr (List (Int × α))
  | [] => .ok []
  | v :: vs =>
      match legacyFetchVisitInfo raw v with
      | .error e => .error e
      | .ok info =>
          match legacyMakeVisitCatalogRows raw vs with
          | .error e => .error e
          | .ok rows => .ok ((v, info) :: rows)

/-- C9 (amended): in the `lsst.fgcmcal` variant the builder fetches metadata
from the raw source first and falls back to the calexp source when the raw
fetch fails; every row of a successful run is filled that way, in visit
order; and a visit for which both sources are unavailable makes the whole
stage abort with the `NoResults` error (it is not silently omitted).  The
legacy `lsst.fgcm` variant fetches the raw source only — no calexp fallback —
and aborts whenever a visit's raw frame is missing. -/
theorem visitMetadata_fetch_behavior (raw calexp : Int → Option α)
    (srcVisits : List Int) :
    (∀ v e, fetchVisitInfo raw calexp v = .ok e
        ↔ (raw v = some e ∨ (raw v = none ∧ calexp v = some e)))
    ∧ (∀ rows, fgcmMakeVisitCatalogRows raw calexp srcVisits = .ok rows →
        rows.length = srcVisits.length
          ∧ ∀ i (hi : i < rows.length) (hv : i < srcVisits.length),
            (rows.get ⟨i, hi⟩).1 = srcVisits.get ⟨i, hv⟩
              ∧ fetchVisitInfo raw calexp (srcVisits.get ⟨i, hv⟩)
                  = .ok (rows.get ⟨i, hi⟩).2)
    ∧ (∀ v ∈ srcVisits, raw v = none → calexp v = none →
        fgcmMakeVisitCatalogRows raw calexp srcVisits
          = .error .noResults)
    ∧ (∀ v e, legacyFetchVisitInfo raw v = .ok e ↔ raw v = some e)
    ∧ (∀ v ∈ srcVisits, raw v = none →
        legacyMakeVisitCatalogRows raw srcVisits = .error .noResults) := by
  refine ⟨fun v e => ?_, ?_, ?_, fun v e => ?_, ?_⟩
  · rw [fetchVisitInfo]
    rcases hr : raw v with _ | e' <;> rcases hc : calexp v with _ | e'' <;> simp
  · induction srcVisits with
    | nil =>
      intro rows h
      rw [fgcmMakeVisitCatalogRows] at h
      obtain rfl : ([] : List (Int × α)) = rows := by simpa using h
      exact ⟨rfl, fun i hi _ => absurd hi (by simp)⟩
    | cons v vs ih =>
      intro rows h
      rw [fgcmMakeVisitCatalogRows] at h
      rcases hf : fetchVisitInfo raw calexp v with e | info <;> rw [hf] at h
      · exact absurd h (by simp)
      · rcases hrec : fgcmMakeVisitCatalogRows raw calexp vs
            with e | rows' <;> rw [hrec] at h
        · exact absurd h (by simp)
        · obtain rfl : (v, info) :: rows' = rows := by simpa using h
          obtain ⟨hlen, hall⟩ := ih rows' hrec
          refine ⟨by simpa using hlen, fun i hi hv => ?_⟩
          match i with
          | 0 => exact ⟨rfl, hf⟩
          | (j + 1) =>
            exact hall j (by simpa using hi) (by simpa using hv)
  · induction srcVisits with
    | nil => intro v hv; exact absurd hv (by simp)
    | cons w ws ih =>
      intro v hv hraw hcal
      rw [fgcmMakeVisitCatalogRows]
      rcases List.mem_cons.mp hv with rfl | hv'
      · rw [show fetchVisitInfo raw calexp v = .error .noResults by
          rw [fetchVisitInfo, hraw, hcal]]
      · rcases hf : fetchVisitInfo raw calexp w with e | info
        · cases e; rfl
        · rw [ih v hv' hraw hcal]
  · rw [legacyFetchVisitInfo]
    rcases hr : raw v with _ | e' <;> simp
  · induction srcVisits with
    | nil => intro v hv; exact absurd hv (by simp)
    | cons w ws ih =>
      intro v hv hraw
      rw [legacyMakeVisitCatalogRows]
      rcases List.mem_cons.mp hv with rfl | hv'
      · rw [show legacyFetchVisitInfo raw v = .error .noResults by
          rw [legacyFetchVisitInfo, hraw]]
      · rcases hf : legacyFetchVisitInfo raw w with e | info
        · cases e; rfl
        · rw [ih v hv' hraw]

/-- Witness for C9's amended theorem: with the raw source empty, the fgcmcal
stage (calexp also empty) and the legacy stage both abort on visit 100. -/
theorem visitMetadata_fetch_behavior_witness :
    fgcmMakeVisitCatalogRows (α := ℕ) (fun _ => none) (fun _ => none) [100]
        = .error .noResults
      ∧ legacyMakeVisitCatalogRows (α := ℕ) (fun _ => none) [100]
        = .error .noResults :=
  ⟨(visitMetadata_fetch_behavior (fun _ => none) (fun _ => none) [100]).2.2.1
      100 (by simp) rfl rfl,
    (visitMetadata_fetch_behavior (fun _ => none) (fun _ => none) [100]).2.2.2.2
      100 (by simp) rfl⟩

/-! ## Star Catalog and Observation-Index Catalog (`_fgcmMatchStars`)

`_fgcmMatchStars` persists the external matcher's outputs by field-by-field
transcription: `fgcmStarIdCat['obsarrindex'] = objIndexCat['OBSARRINDEX']`,
`fgcmStarIdCat['nobs'] = objIndexCat['NOBS']`, and
`fgcmStarIndicesCat['obsindex'] = obsIndexCat['OBSINDEX']`.  The matcher
itself (`fgcm.FgcmMakeStars`) is an external collaborator whose internals are
not in this repository; its output shape is modelled from the spec. -/

/-- Star Catalog row, restricted to the fields of the CSR invariant: start
offset into the Observation-Index array (`obsarrindex`) and observation
count (`nobs`). -/
structure StarRec where
  obsarrindex : ℕ
  nobs : ℕ
  deriving DecidableEq

/-- Modelled from the spec: the external Star Matcher (`fgcm.FgcmMakeStars`,
not part of this repository) assigns every observation to zero or one unique
star; `groups` lists, star by star, the Observation Catalog row indices of
the detections matched to that star.  Its object-index table stores, for
star `i`, the starting offset OBSARRINDEX — the total size of the groups
before it — and the count NOBS. -/
def objIndexCat (groups : List (List ℕ)) : List StarRec :=
  (List.range groups.length).map fun i =>
    ⟨((groups.take i).map List.length).sum, (groups.getD i []).length⟩

/-- Modelled from the spec: the matcher's flat per-observation index array
OBSINDEX — the concatenation of the per-star groups of Observation Catalog
row indices. -/
def obsIndexCat (groups : List (List ℕ)) : List ℕ := groups.flatten

/-- The persisted `fgcmStarIds` catalog: a field-by-field copy of the
matcher's object-index table. -/
def fgcmStarIdCat (groups : List (List ℕ)) : List StarRec := objIndexCat groups

/-- The persisted `fgcmStarIndices` catalog: a field-by-field copy of the
matcher's observation-index array. -/
def fgcmStarIndicesCat (groups : List (List ℕ)) : List ℕ := obsIndexCat groups

lemma fgcmStarIdCat_length (groups : List (List ℕ)) :
    (fgcmStarIdCat groups).length = groups.length := by
  simp [fgcmStarIdCat, objIndexCat]

lemma fgcmStarIdCat_get (groups : List (List ℕ)) (i : ℕ)
    (hi : i < (fgcmStarIdCat groups).length) (hg : i < groups.length) :
    (fgcmStarIdCat groups).get ⟨i, hi⟩
      = ⟨(((groups.map List.length).take i)).sum, (groups.get ⟨i, hg⟩).length⟩ := by
  simp only [fgcmStarIdCat, objIndexCat, List.get_eq_getElem, List.getElem_map,
    List.getElem_range, List.map_take]
  rw [List.getD_eq_getElem _ _ hg]

lemma sum_take_le_sum_take (L : List ℕ) (i j : ℕ) (hij : i ≤ j) :
    (L.take i).sum ≤ (L.take j).sum := by
  obtain ⟨k, rfl⟩ := Nat.exists_eq_add_of_le hij
  rw [List.take_add, List.sum_append]
  exact Nat.le_add_right _ _

/-- C1: the persisted Star Catalog and Observation-Index Catalog form a
valid CSR index: the per-star counts sum to the length of the index array;
each star's half-open range `[start, start+count)` lies inside the array;
ranges of distinct stars are pairwise disjoint (an earlier star's range ends
no later than a later star's range starts); the entries of star `i`'s range
are exactly the Observation Catalog row indices matched to star `i`; and
every entry is a valid Observation Catalog row index. -/
theorem starIndex_csr_valid (groups : List (List ℕ)) (nObs : ℕ)
    (hmem : ∀ g ∈ groups, ∀ r ∈ g, r < nObs) :
    ((fgcmStarIdCat groups).map (·.nobs)).sum
        = (fgcmStarIndicesCat groups).length
    ∧ (∀ i (hi : i < (fgcmStarIdCat groups).length),
        ((fgcmStarIdCat groups).get ⟨i, hi⟩).obsarrindex
            + ((fgcmStarIdCat groups).get ⟨i, hi⟩).nobs
          ≤ (fgcmStarIndicesCat groups).length)
    ∧ (∀ i j (hi : i < (fgcmStarIdCat groups).length)
        (hj : j < (fgcmStarIdCat groups).length), i < j →
        ((fgcmStarIdCat groups).get ⟨i, hi⟩).obsarrindex
            + ((fgcmStarIdCat groups).get ⟨i, hi⟩).nobs
          ≤ ((fgcmStarIdCat groups).get ⟨j, hj⟩).obsarrindex)
    ∧ (∀ i (hi : i < (fgcmStarIdCat groups).length) (hg : i < groups.length),
        ((fgcmStarIndicesCat groups).take
            (((fgcmStarIdCat groups).get ⟨i, hi⟩).obsarrindex
              + ((fgcmStarIdCat groups).get ⟨i, hi⟩).nobs)).drop
            ((fgcmStarIdCat groups).get ⟨i, hi⟩).obsarrindex
          = groups.get ⟨i, hg⟩)
    ∧ (∀ r ∈ fgcmStarIndicesCat groups, r < nObs) := by
  have hmap : (fgcmStarIdCat groups).map (·.nobs) = groups.map List.length := by
    apply List.ext_getElem
    · simp [fgcmStarIdCat, objIndexCat]
    · intro i h1 h2
      have hg : i < groups.length := by simpa using h2
      simp only [fgcmStarIdCat, objIndexCat, List.getElem_map, List.getElem_range]
      rw [List.getD_eq_getElem _ _ hg]
  have hlenflat : (fgcmStarIndicesCat groups).length
      = (groups.map List.length).sum := by
    simp [fgcmStarIndicesCat, obsIndexCat, List.length_flatten]
  refine ⟨?_, ?_, ?_, ?_, ?_⟩
  · rw [hmap, hlenflat]
  · intro i hi
    have hg : i < groups.length := by
      simpa [fgcmStarIdCat_length] using hi
    rw [fgcmStarIdCat_get groups i hi hg]
    have hml : i < (groups.map List.length).length := by simpa using hg
    have hsucc := List.sum_take_succ (groups.map List.length) i hml
    simp only at hsucc ⊢
    rw [show (groups.map List.length)[i] = (groups.get ⟨i, hg⟩).length by
      simp [List.getElem_map]] at hsucc
    rw [← hsucc, hlenflat]
    calc ((groups.map List.length).take (i + 1)).sum
        ≤ ((groups.map List.length).take (groups.map List.length).length).sum :=
          sum_take_le_sum_take _ _ _ (by simpa using hg)
      _ = (groups.map List.length).sum := by rw [List.take_length]
  · intro i j hi hj hij
    have hgi : i < groups.length := by simpa [fgcmStarIdCat_length] using hi
    have hgj : j < groups.length := by simpa [fgcmStarIdCat_length] using hj
    rw [fgcmStarIdCat_get groups i hi hgi, fgcmStarIdCat_get groups j hj hgj]
    have hml : i < (groups.map List.length).length := by simpa using hgi
    have hsucc := List.sum_take_succ (groups.map List.length) i hml
    simp only at hsucc ⊢
    rw [show (groups.map List.length)[i] = (groups.get ⟨i, hgi⟩).length by
      simp [List.getElem_map]] at hsucc
    rw [← hsucc]
    exact sum_take_le_sum_take _ _ _ hij
  · intro i hi hg
    rw [fgcmStarIdCat_get groups i hi hg]
    have hml : i < (groups.map List.length).length := by simpa using hg
    have hsucc := List.sum_take_succ (groups.map List.length) i hml
    simp only at hsucc ⊢
    rw [show (groups.map List.length)[i] = (groups.get ⟨i, hg⟩).length by
      simp [List.getElem_map]] at hsucc
    rw [← hsucc]
    have := List.drop_take_succ_flatten_eq_getElem groups i hg
    simpa [fgcmStarIndicesCat, obsIndexCat] using this
  · intro r hr
    rw [fgcmStarIndicesCat, obsIndexCat] at hr
    obtain ⟨g, hg, hrg⟩ := List.mem_flatten.mp hr
    exact hmem g hg r hrg

/-- Witness for C1 at the spec's end-to-end scenario: two stars with
observation groups of 3 and 2 rows out of a 5-row Observation Catalog. -/
theorem starIndex_csr_valid_witness :
    (∀ g ∈ [[0, 1, 2], [3, 4]], ∀ r ∈ g, r < 5)
      ∧ ((fgcmStarIdCat [[0, 1, 2], [3, 4]]).map (·.nobs)).sum
          = (fgcmStarIndicesCat [[0, 1, 2], [3, 4]]).length :=
  ⟨by decide, (starIndex_csr_valid [[0, 1, 2], [3, 4]] 5 (by decide)).1⟩

/-! ## Pipeline Orchestrator (`FgcmBuildStarsTask.run`)

`run()` guards each stage with
`self.config.remake or not butler.datasetExists(name)` (the legacy variant
has no remake flag, i.e. remake = false): a stage whose artifacts all exist
is skipped and the existing artifacts are reused; otherwise the stage runs
fully and commits with `butler.put` at its end.  The butler is a record of
the four optional artifacts; every `put` appends the dataset name to a write
log.  Stage bodies are abstract builders returning `Except`; an exception
propagates out of `run`, so later stages do not execute.  The match stage
re-fetches `fgcmStarObservations` from the butler, whose absence would also
raise there. -/

/-- The butler's view of the four persisted artifacts. -/
structure ButlerStore (V O S I : Type) where
  visitCat : Option V
  starObs : Option O
  starIds : Option S
  starIndices : Option I

/-- The stage in which a run raised. -/
inductive StageId where
  | visits
  | observations
  | matching
  deriving DecidableEq

/-- Outcome of one `run()` invocation: final butler state, the dataset names
written (in order), and the stage that raised, if any. -/
structure RunResult (V O S I : Type) where
  store : ButlerStore V O S I
  puts : List String
  failed : Option StageId

/-- Third stage: `_fgcmMatchStars`, skipped when `fgcmStarIds` and
`fgcmStarIndices` both exist and remake is unset; otherwise it fetches the
observation catalog, runs the matcher, and puts both star catalogs at the
end. -/
def runMatchStage (b3 : V → O → Except E (S × I)) (v : V)
    (s : ButlerStore V O S I) (puts : List String) (remake : Bool) :
    RunResult V O S I :=
  match s.starIds, s.starIndices, remake with
  | some _, some _, false => ⟨s, puts, none⟩
  | _, _, _ =>
      match s.starObs with
      | none => ⟨s, puts, some .matching⟩
      | some o =>
          match b3 v o with
          | .error _ => ⟨s, puts, some .matching⟩
          | .ok (st, ix) =>
              ⟨⟨s.visitCat, s.starObs, some st, some ix⟩,
                puts ++ ["fgcmStarIds", "fgcmStarIndices"], none⟩

/-- Second stage: `_fgcmMakeAllStarObservations`, skipped when
`fgcmStarObservations` exists and remake is unset; otherwise it accumulates
the catalog fully and puts it once at the end. -/
def runObsStage (b2 : V → Except E O) (b3 : V → O → Except E (S × I))
    (v : V) (s : ButlerStore V O S I) (puts : List String) (remake : Bool) :
    RunResult V O S I :=
  match s.starObs, remake with
  | some _, false => runMatchStage b3 v s puts false
  | _, _ =>
      match b2 v with
      | .error _ => ⟨s, puts, some .observations⟩
      | .ok o =>
          runMatchStage b3 v ⟨s.visitCat, some o, s.starIds, s.starIndices⟩
            (puts ++ ["fgcmStarObservations"]) remake

/-- `FgcmBuildStarsTask.run`: visit stage (skipped when `fgcmVisitCatalog`
exists and remake is unset), then observation stage, then match stage. -/
def runTask (remake : Bool) (b1 : Except E V) (b2 : V → Except E O)
    (b3 : V → O → Except E (S × I)) (s : ButlerStore V O S I) :
    RunResult V O S I :=
  match s.visitCat, remake with
  | some v, false => runObsStage b2 b3 v s [] false
  | _, _ =>
      match b1 with
      | .error _ => ⟨s, [], some .visits⟩
      | .ok v =>
          runObsStage b2 b3 v ⟨some v, s.starObs, s.starIds, s.starIndices⟩
            ["fgcmVisitCatalog"] remake

lemma runTask_skip_all (b1 : Except E V) (b2 : V → Except E O)
    (b3 : V → O → Except E (S × I)) (v : V) (o : O) (st : S) (ix : I) :
    runTask false b1 b2 b3 ⟨some v, some o, some st, some ix⟩
      = ⟨⟨some v, some o, some st, some ix⟩, [], none⟩ := by
  simp [runTask, runObsStage, runMatchStage]

lemma runMatchStage_success (b3 : V → O → Except E (S × I)) (v : V)
    (s : ButlerStore V O S I) (puts : List String) (remake : Bool)
    (h : (runMatchStage b3 v s puts remake).failed = none) :
    (runMatchStage b3 v s puts remake).store.visitCat = s.visitCat
    ∧ (runMatchStage b3 v s puts remake).store.starObs = s.starObs
    ∧ (runMatchStage b3 v s puts remake).store.starIds.isSome
    ∧ (runMatchStage b3 v s puts remake).store.starIndices.isSome := by
  obtain ⟨vc, so, si, sx⟩ := s
  unfold runMatchStage at h ⊢
  repeat' split at h
  all_goals simp_all

lemma runObsStage_success (b2 : V → Except E O) (b3 : V → O → Except E (S × I))
    (v : V) (s : ButlerStore V O S I) (puts : List String) (remake : Bool)
    (h : (runObsStage b2 b3 v s puts remake).failed = none) :
    (runObsStage b2 b3 v s puts remake).store.visitCat = s.visitCat
    ∧ (runObsStage b2 b3 v s puts remake).store.starObs.isSome
    ∧ (runObsStage b2 b3 v s puts remake).store.starIds.isSome
    ∧ (runObsStage b2 b3 v s puts remake).store.starIndices.isSome := by
  obtain ⟨vc, so, si, sx⟩ := s
  unfold runObsStage at h ⊢
  repeat' split at h
  · obtain ⟨h1, h2, h3, h4⟩ := runMatchStage_success b3 v _ puts false h
    refine ⟨h1, ?_, h3, h4⟩
    rw [h2]
    simp_all
  · simp_all
  · obtain ⟨h1, h2, h3, h4⟩ := runMatchStage_success b3 v _ _ _ h
    refine ⟨h1, ?_, h3, h4⟩
    rw [h2]
    simp

lemma runTask_success (b1 : Except E V) (b2 : V → Except E O)
    (b3 : V → O → Except E (S × I)) (s : ButlerStore V O S I) (remake : Bool)
    (h : (runTask remake b1 b2 b3 s).failed = none) :
    (runTask remake b1 b2 b3 s).store.visitCat.isSome
    ∧ (runTask remake b1 b2 b3 s).store.starObs.isSome
    ∧ (runTask remake b1 b2 b3 s).store.starIds.isSome
    ∧ (runTask remake b1 b2 b3 s).store.starIndices.isSome := by
  obtain ⟨vc, so, si, sx⟩ := s
  unfold runTask at h ⊢
  repeat' split at h
  · obtain ⟨h1, h2, h3, h4⟩ := runObsStage_success b2 b3 _ _ [] false h
    refine ⟨?_, h2, h3, h4⟩
    rw [h1]
    simp_all
  · simp_all
  · obtain ⟨h1, h2, h3, h4⟩ := runObsStage_success b2 b3 _ _ _ _ h
    refine ⟨?_, h2, h3, h4⟩
    rw [h1]
    simp

/-- C7: each stage whose artifacts already exist in the data store is
skipped when the rebuild flag is unset — in any store, partial or full, the
run neither rewrites nor alters an already-present artifact of that stage;
a fully-populated store makes the whole run a no-op; and consequently,
whenever a run with the rebuild flag unset completes without failure,
running the pipeline again changes nothing: all four persisted artifacts
stay identical and nothing is written. -/
theorem pipeline_idempotent (b1 : Except E V) (b2 : V → Except E O)
    (b3 : V → O → Except E (S × I)) (s : ButlerStore V O S I) :
    (s.visitCat.isSome →
        (runTask false b1 b2 b3 s).store.visitCat = s.visitCat
          ∧ "fgcmVisitCatalog" ∉ (runTask false b1 b2 b3 s).puts)
    ∧ (s.starObs.isSome →
        (runTask false b1 b2 b3 s).store.starObs = s.starObs
          ∧ "fgcmStarObservations" ∉ (runTask false b1 b2 b3 s).puts)
    ∧ (s.starIds.isSome → s.starIndices.isSome →
        (runTask false b1 b2 b3 s).store.starIds = s.starIds
          ∧ (runTask false b1 b2 b3 s).store.starIndices = s.starIndices
          ∧ "fgcmStarIds" ∉ (runTask false b1 b2 b3 s).puts
          ∧ "fgcmStarIndices" ∉ (runTask false b1 b2 b3 s).puts)
    ∧ (∀ v o st ix, s = ⟨some v, some o, some st, some ix⟩ →
        runTask false b1 b2 b3 s = ⟨s, [], none⟩)
    ∧ ((runTask false b1 b2 b3 s).failed = none →
        runTask false b1 b2 b3 (runTask false b1 b2 b3 s).store
          = ⟨(runTask false b1 b2 b3 s).store, [], none⟩) := by
  have hstages :
      (s.visitCat.isSome →
          (runTask false b1 b2 b3 s).store.visitCat = s.visitCat
            ∧ "fgcmVisitCatalog" ∉ (runTask false b1 b2 b3 s).puts)
      ∧ (s.starObs.isSome →
          (runTask false b1 b2 b3 s).store.starObs = s.starObs
            ∧ "fgcmStarObservations" ∉ (runTask false b1 b2 b3 s).puts)
      ∧ (s.starIds.isSome → s.starIndices.isSome →
          (runTask false b1 b2 b3 s).store.starIds = s.starIds
            ∧ (runTask false b1 b2 b3 s).store.starIndices = s.starIndices
            ∧ "fgcmStarIds" ∉ (runTask false b1 b2 b3 s).puts
            ∧ "fgcmStarIndices" ∉ (runTask false b1 b2 b3 s).puts) := by
    obtain ⟨vc, so, si, sx⟩ := s
    unfold runTask runObsStage runMatchStage
    rcases vc with _ | v0 <;> rcases so with _ | o0 <;>
      rcases si with _ | st0 <;> rcases sx with _ | ix0
    all_goals repeat' split
    all_goals refine ⟨?_, ?_, ?_⟩ <;> intros <;> simp_all
  refine ⟨hstages.1, hstages.2.1, hstages.2.2, ?_, ?_⟩
  · rintro v o st ix rfl
    exact runTask_skip_all b1 b2 b3 v o st ix
  · intro h
    obtain ⟨h1, h2, h3, h4⟩ := runTask_success b1 b2 b3 s false h
    rcases hst : (runTask false b1 b2 b3 s).store with ⟨vc', so', si', sx'⟩
    rw [hst] at h1 h2 h3 h4
    simp only at h1 h2 h3 h4
    obtain ⟨v, rfl⟩ := Option.isSome_iff_exists.mp h1
    obtain ⟨o, rfl⟩ := Option.isSome_iff_exists.mp h2
    obtain ⟨st, rfl⟩ := Option.isSome_iff_exists.mp h3
    obtain ⟨ix, rfl⟩ := Option.isSome_iff_exists.mp h4
    exact runTask_skip_all b1 b2 b3 v o st ix

/-- Witness for C7: at a partial store holding only the Visit Catalog, the
visit stage is skipped — the artifact is reused unchanged and not rewritten —
and at a fully-populated store the whole run is a no-op. -/
theorem pipeline_idempotent_witness :
    ((runTask (E := Unit) false (.ok (1 : ℕ)) (fun _ => .ok (2 : ℕ))
        (fun _ _ => .ok ((3 : ℕ), (4 : ℕ)))
        ⟨some (1 : ℕ), none, none, none⟩).store.visitCat = some 1
      ∧ "fgcmVisitCatalog" ∉ (runTask (E := Unit) false (.ok (1 : ℕ))
          (fun _ => .ok (2 : ℕ)) (fun _ _ => .ok ((3 : ℕ), (4 : ℕ)))
          ⟨some (1 : ℕ), none, none, none⟩).puts)
    ∧ runTask (E := Unit) false (.ok 1) (fun _ => .ok 2)
        (fun _ _ => .ok ((3 : ℕ), (4 : ℕ)))
        ⟨some (1 : ℕ), some (2 : ℕ), some (3 : ℕ), some (4 : ℕ)⟩
      = ⟨⟨some 1, some 2, some 3, some 4⟩, [], none⟩ :=
  ⟨(pipeline_idempotent (.ok 1) (fun _ => .ok 2) (fun _ _ => .ok (3, 4))
      ⟨some 1, none, none, none⟩).1 rfl,
    (pipeline_idempotent (.ok 1) (fun _ => .ok 2) (fun _ _ => .ok (3, 4))
      ⟨some 1, some 2, some 3, some 4⟩).2.2.2.1 1 2 3 4 rfl⟩

/-- C8: each stage commits its artifacts at most once, at the end of its
full accumulation; when a stage fails, that stage's artifacts and those of
every later stage are left exactly as they were and are never written; and a
fully successful run from an empty store writes each of the four artifacts
exactly once, in stage order. -/
theorem stage_commit_once_and_abort_clean (remake : Bool) (b1 : Except E V)
    (b2 : V → Except E O) (b3 : V → O → Except E (S × I))
    (s : ButlerStore V O S I) :
    (runTask remake b1 b2 b3 s).puts.Nodup
    ∧ ((runTask remake b1 b2 b3 s).failed = some .visits →
        (runTask remake b1 b2 b3 s).store.visitCat = s.visitCat
          ∧ (runTask remake b1 b2 b3 s).store.starObs = s.starObs
          ∧ (runTask remake b1 b2 b3 s).store.starIds = s.starIds
          ∧ (runTask remake b1 b2 b3 s).store.starIndices = s.starIndices
          ∧ (runTask remake b1 b2 b3 s).puts = [])
    ∧ ((runTask remake b1 b2 b3 s).failed = some .observations →
        (runTask remake b1 b2 b3 s).store.starObs = s.starObs
          ∧ (runTask remake b1 b2 b3 s).store.starIds = s.starIds
          ∧ (runTask remake b1 b2 b3 s).store.starIndices = s.starIndices
          ∧ "fgcmStarObservations" ∉ (runTask remake b1 b2 b3 s).puts
          ∧ "fgcmStarIds" ∉ (runTask remake b1 b2 b3 s).puts
          ∧ "fgcmStarIndices" ∉ (runTask remake b1 b2 b3 s).puts)
    ∧ ((runTask remake b1 b2 b3 s).failed = some .matching →
        (runTask remake b1 b2 b3 s).store.starIds = s.starIds
          ∧ (runTask remake b1 b2 b3 s).store.starIndices = s.starIndices
          ∧ "fgcmStarIds" ∉ (runTask remake b1 b2 b3 s).puts
          ∧ "fgcmStarIndices" ∉ (runTask remake b1 b2 b3 s).puts)
    ∧ (s.visitCat = none → s.starObs = none → s.starIds = none →
        (runTask remake b1 b2 b3 s).failed = none →
        (runTask remake b1 b2 b3 s).puts
          = ["fgcmVisitCatalog", "fgcmStarObservations",
              "fgcmStarIds", "fgcmStarIndices"]) := by
  obtain ⟨vc, so, si, sx⟩ := s
  unfold runTask runObsStage runMatchStage
  repeat' split
  all_goals refine ⟨?_, ?_, ?_, ?_, ?_⟩ <;> intros <;> simp_all

/-- Witness for C8: with a failing observation builder on an empty store,
the visit catalog is written but the observation stage's artifact is neither
created nor written. -/
theorem stage_commit_once_and_abort_clean_witness :
    (runTask (E := Unit) false (.ok (1 : ℕ)) (fun _ => .error ())
        (fun _ (_ : ℕ) => .ok ((3 : ℕ), (4 : ℕ)))
        ⟨none, none, none, none⟩).store.starObs = none
      ∧ "fgcmStarObservations" ∉ (runTask (E := Unit) false (.ok (1 : ℕ))
          (fun _ => .error ()) (fun _ (_ : ℕ) => .ok ((3 : ℕ), (4 : ℕ)))
          ⟨none, none, none, none⟩).puts :=
  ⟨((stage_commit_once_and_abort_clean false (.ok 1) (fun _ => .error ())
      (fun _ _ => .ok (3, 4)) ⟨none, none, none, none⟩).2.2.1 rfl).1,
    ((stage_commit_once_and_abort_clean false (.ok 1) (fun _ => .error ())
      (fun _ _ => .ok (3, 4)) ⟨none, none, none, none⟩).2.2.1 rfl).2.2.2.1⟩

end FgcmBuildStars
